import Mathlib

/-!
Shallow embedding of the virtual-tryon backend core:
the credit ledger (authRoutes.js generation service), the Polar webhook
reconciler (services/payment/webhookHandler.js) and the multi-provider
API manager (services/apiManager.js, services/apiConfig.js, app.js).
Database calls are modelled as pure state transitions on a `Db` value;
JavaScript numbers that can become NaN are modelled by `JsNum`.
-/

namespace VTryon

/-- A JavaScript number as it flows through the credit fields: either a
genuine integer or the NaN that `parseInt` yields on non-numeric input. -/
inductive JsNum where
  | nan : JsNum
  | int : Int → JsNum
deriving DecidableEq

/-- JavaScript `+` on numbers: any operation touching NaN yields NaN. -/
def JsNum.add : JsNum → JsNum → JsNum
  | .int a, .int b => .int (a + b)
  | _, _ => .nan

/-- JavaScript `-` on numbers. -/
def JsNum.sub : JsNum → JsNum → JsNum
  | .int a, .int b => .int (a - b)
  | _, _ => .nan

/-- JavaScript `<`: every comparison involving NaN is false. -/
def JsNum.lt : JsNum → JsNum → Bool
  | .int a, .int b => a < b
  | _, _ => false

/-- JavaScript falsiness for numbers: `0` and NaN are falsy. -/
def JsNum.falsy : JsNum → Bool
  | .nan => true
  | .int a => a == 0

/-- The value is an integer that is not negative (in particular, not NaN). -/
def JsNum.nonneg : JsNum → Bool
  | .nan => false
  | .int a => 0 ≤ a

/-- Decimal value of a digit string. -/
def digitsVal (ds : List Char) : Nat :=
  ds.foldl (fun acc c => acc * 10 + (c.toNat - ('0').toNat)) 0

/-- JavaScript `parseInt` restricted to the inputs this system feeds it:
leading spaces, an optional sign, then a maximal run of decimal digits;
no digits at all gives NaN. -/
def jsParseInt (s : String) : JsNum :=
  let cs := s.data.dropWhile (fun c => c == ' ')
  let signRest : Int × List Char :=
    match cs with
    | '-' :: r => (-1, r)
    | '+' :: r => (1, r)
    | r => (1, r)
  let ds := signRest.2.takeWhile Char.isDigit
  if ds.isEmpty then .nan else .int (signRest.1 * (digitsVal ds : Int))

/-- JavaScript `a || b` on optional strings: `undefined` and `""` are falsy. -/
def jsOrStr (a b : Option String) : Option String :=
  match a with
  | some s => if s = "" then b else some s
  | none => b

/-- Collapse a JavaScript string value to `none` when it is falsy
(`undefined` or the empty string), as an `if (!x)` guard sees it. -/
def jsTruthyStr : Option String → Option String
  | some s => if s = "" then none else some s
  | none => none

/-- JavaScript `a || b || 0` on optional numbers (0 itself is falsy). -/
def jsOrInt (a b : Option Int) : Int :=
  match a with
  | some x => if x = 0 then (match b with | some y => y | none => 0) else x
  | none => match b with | some y => y | none => 0

/-- A row of the `users` table (the fields the core touches). -/
structure UserRow where
  id : String
  credits : JsNum
  free_trials_used : Int
  free_trials_limit : Int
  total_generations : Int
deriving DecidableEq

/-- A row of the `transactions` table (webhookHandler.js 175-193). -/
structure TransactionRow where
  user_id : String
  order_id : String
  amount : Int
  credits_added : JsNum
deriving DecidableEq

/-- A row of the `credit_history` table (authRoutes.js 485-493). -/
structure CreditHistoryRow where
  user_id : String
  amount : Int
  balance_before : JsNum
  balance_after : JsNum
  reason : String
deriving DecidableEq

/-- A row of the `generations` table (the fields the core writes). -/
structure GenerationRow where
  user_id : String
  category : String
  api_used : String
  credits_used : Int
  was_free_trial : Bool
deriving DecidableEq

/-- The storage backend state: the four tables the core reads and writes. -/
structure Db where
  users : List UserRow
  transactions : List TransactionRow
  credit_history : List CreditHistoryRow
  generations : List GenerationRow
deriving DecidableEq

/-- `select ... from users where id = uid` followed by `.single()`. -/
def findUser (db : Db) (uid : String) : Option UserRow :=
  db.users.find? (fun u => u.id == uid)

/-- `select ... from transactions where order_id = oid` with `.single()`
(webhookHandler.js 102-106). -/
def findTransaction (db : Db) (oid : String) : Option TransactionRow :=
  db.transactions.find? (fun t => t.order_id == oid)

/-- `update users set ... where id = uid`. -/
def updateUser (db : Db) (uid : String) (f : UserRow → UserRow) : Db :=
  { db with users := db.users.map (fun u => if u.id == uid then f u else u) }

/-- Credits column of the account with the given id. -/
def userCredits (db : Db) (uid : String) : Option JsNum :=
  (findUser db uid).map (fun u => u.credits)

/-- Free-trials-used column of the account with the given id. -/
def userFreeTrials (db : Db) (uid : String) : Option Int :=
  (findUser db uid).map (fun u => u.free_trials_used)

/-- How many transaction rows carry the given order id. -/
def txCountFor (db : Db) (oid : String) : Nat :=
  db.transactions.countP (fun t => t.order_id == oid)

/-- `createGeneration` (generation service, authRoutes.js 328-376): insert a
`generations` row, then increment the total_generations counter. -/
def createGeneration (db : Db) (uid : String) (g : GenerationRow) : Db :=
  let db1 : Db := { db with generations := db.generations ++ [g] }
  updateUser db1 uid (fun u => { u with total_generations := u.total_generations + 1 })

/-- Outcome of a generation debit (the `success`, `code` shape the
generation service returns). -/
inductive DebitResult where
  | success (credits_remaining : Option JsNum)
  | noFreeTrials
  | insufficientCredits
  | userNotFound
deriving DecidableEq

/-- `useFreeTrial` (authRoutes.js 407-451): read the user, reject when
free_trials_used has reached free_trials_limit, otherwise increment the
counter and record a zero-credit generation flagged was_free_trial. -/
def useFreeTrial (db : Db) (uid category api_used : String) : Db × DebitResult :=
  match findUser db uid with
  | none => (db, .userNotFound)
  | some u =>
    if u.free_trials_limit ≤ u.free_trials_used then (db, .noFreeTrials)
    else
      let db1 := updateUser db uid
        (fun v => { v with free_trials_used := v.free_trials_used + 1 })
      let db2 := createGeneration db1 uid ⟨uid, category, api_used, 0, true⟩
      (db2, .success none)

/-- `useCredits` (authRoutes.js 456-513): read the user, reject when
`user.credits < creditsToUse` (a NaN balance passes this check, as in
JavaScript), otherwise write the decremented balance, append a
credit_history entry and record the generation. -/
def useCredits (db : Db) (uid category api_used : String) (creditsToUse : Int) :
    Db × DebitResult :=
  match findUser db uid with
  | none => (db, .userNotFound)
  | some u =>
    if JsNum.lt u.credits (.int creditsToUse) then (db, .insufficientCredits)
    else
      let newBalance := JsNum.sub u.credits (.int creditsToUse)
      let db1 := updateUser db uid (fun v => { v with credits := newBalance })
      let db2 : Db := { db1 with credit_history := db1.credit_history ++
        [⟨uid, -creditsToUse, u.credits, newBalance, "generation_used"⟩] }
      let db3 := createGeneration db2 uid ⟨uid, category, api_used, creditsToUse, false⟩
      (db3, .success (some newBalance))

/-- The metadata blob of a Polar order; values arrive as strings. -/
structure OrderMetadata where
  userId : Option String
  user_id : Option String
  planCredits : Option String
  credits : Option String
deriving DecidableEq

/-- A Polar order payload (the fields handleOrderCreated touches). -/
structure PolarOrder where
  id : String
  status : String
  metadata : OrderMetadata
  totalAmount : Option Int
  amount : Option Int
deriving DecidableEq

/-- `metadata.userId || metadata.user_id` (webhookHandler.js 133). -/
def orderUserId (o : PolarOrder) : Option String :=
  jsOrStr o.metadata.userId o.metadata.user_id

/-- `parseInt(metadata.planCredits || metadata.credits || 0)`
(webhookHandler.js 142); the `|| 0` default parses to 0. -/
def orderCreditsToAdd (o : PolarOrder) : JsNum :=
  match jsOrStr o.metadata.planCredits o.metadata.credits with
  | some s => jsParseInt s
  | none => .int 0

/-- Where handleOrderCreated exits (each constructor is one of its early
returns, or the completed credit). -/
inductive WebhookOutcome where
  | notPaid
  | alreadyProcessed
  | dedupCheckError
  | missingUserId
  | zeroCredits
  | userFetchFailed
  | credited (newCredits : JsNum)
deriving DecidableEq

/-- `handleOrderCreated` (webhookHandler.js 83-240). `dedupFault` injects a
storage error other than PGRST116 in the idempotency lookup (line 117),
which the code converts into a silent return (line 126). The duplicate-key
23505 branch of the insert cannot fire in this sequential model because the
dedup lookup just ran against the same state; the rollback branch of the
balance update is likewise not reachable (the modelled update is total). -/
def handleOrderCreated (dedupFault : Bool) (o : PolarOrder) (db : Db) :
    Db × WebhookOutcome :=
  if o.status ≠ "paid" then (db, .notPaid)
  else if dedupFault then (db, .dedupCheckError)
  else match findTransaction db o.id with
  | some _ => (db, .alreadyProcessed)
  | none =>
    match jsTruthyStr (orderUserId o) with
    | none => (db, .missingUserId)
    | some uid =>
      let creditsToAdd := orderCreditsToAdd o
      if creditsToAdd = .int 0 then (db, .zeroCredits)
      else match findUser db uid with
      | none => (db, .userFetchFailed)
      | some u =>
        let currentCredits := if u.credits.falsy then JsNum.int 0 else u.credits
        let newCredits := currentCredits.add creditsToAdd
        let db1 : Db := { db with transactions := db.transactions ++
          [⟨uid, o.id, jsOrInt o.totalAmount o.amount, creditsToAdd⟩] }
        let db2 := updateUser db1 uid (fun v => { v with credits := newCredits })
        (db2, .credited newCredits)

/-- An inbound Polar webhook event after signature validation. -/
structure PolarEvent where
  type : String
  data : PolarOrder
deriving DecidableEq

/-- POST /api/webhooks/polar (webhookHandler.js 13-76): returns the HTTP
status and the new storage state. handleOrderCreated swallows its own
processing errors, so every validly signed event is acknowledged with 202;
an invalid signature is the single 403 path. -/
def polarWebhookRoute (sigValid dedupFault : Bool) (ev : PolarEvent) (db : Db) :
    Nat × Db :=
  if ¬sigValid then (403, db)
  else if ev.type = "order.created" then
    (202, (handleOrderCreated dedupFault ev.data db).1)
  else if ev.type = "order.updated" then
    if ev.data.status = "paid" then (202, (handleOrderCreated dedupFault ev.data db).1)
    else (202, db)
  else (202, db)

/-- One ledger-affecting operation: a free-trial debit, a paid-credit
debit, or a webhook credit add. -/
inductive LedgerOp where
  | freeTrial (uid category api_used : String)
  | credit (uid category api_used : String) (creditsToUse : Int)
  | webhookAdd (dedupFault : Bool) (o : PolarOrder)
deriving DecidableEq

/-- Apply one ledger operation to the storage state. -/
def applyOp (db : Db) : LedgerOp → Db
  | .freeTrial uid ct au => (useFreeTrial db uid ct au).1
  | .credit uid ct au k => (useCredits db uid ct au k).1
  | .webhookAdd f o => (handleOrderCreated f o db).1

/-- Apply a sequence of ledger operations left to right. -/
def applyOps (db : Db) (ops : List LedgerOp) : Db :=
  ops.foldl applyOp db

/-- The per-account invariant of the spec: a nonnegative integer credit
balance and a trial counter within its limit. -/
def rowOk (u : UserRow) : Bool :=
  u.credits.nonneg && u.free_trials_used ≤ u.free_trials_limit

/-- The invariant holds for every account in the state. -/
def accountInvariant (db : Db) : Bool :=
  db.users.all rowOk

/-- A webhook add is benign when its metadata quantity parses to a
nonnegative integer; the code itself never checks this. -/
def LedgerOp.okQuantity : LedgerOp → Bool
  | .webhookAdd _ o => (orderCreditsToAdd o).nonneg
  | _ => true

/-- The ids of the user rows (unique in any real state: primary key). -/
def userIds (db : Db) : List String :=
  db.users.map (fun u => u.id)

/-- Registration order of the providers, `Object.keys(this.apis)`
(apiManager.js 8-11). -/
def apiNames : List String := ["idm-vton", "nano-banana"]

/-- The togglable enabled/active flags of apiConfig (apiConfig.js 12-13,
28-29); configuration reload may change them, nothing else does. -/
structure ApiFlags where
  idmEnabled : Bool
  idmActive : Bool
  nanoEnabled : Bool
  nanoActive : Bool
deriving DecidableEq

/-- `apiConfig[name].enabled` (false for an unknown name, as `!config`). -/
def ApiFlags.enabledFor (c : ApiFlags) : String → Bool
  | "idm-vton" => c.idmEnabled
  | "nano-banana" => c.nanoEnabled
  | _ => false

/-- `apiConfig[name].active` (false for an unknown name). -/
def ApiFlags.activeFor (c : ApiFlags) : String → Bool
  | "idm-vton" => c.idmActive
  | "nano-banana" => c.nanoActive
  | _ => false

/-- The priority ranks written in apiConfig.js (lines 19-23 and 37-41):
idm-vton is rank 2 and nano-banana rank 1 for every category. -/
def configuredPriority (api : String) (category : String) : Option Int :=
  if api = "idm-vton" then
    if category = "upper_body" ∨ category = "lower_body" ∨ category = "dresses"
    then some 2 else none
  else if api = "nano-banana" then
    if category = "upper_body" ∨ category = "lower_body" ∨ category = "dresses"
    then some 1 else none
  else none

/-- The flag values literally present in apiConfig.js. -/
def sourceFlags : ApiFlags := ⟨false, false, true, true⟩

/-- Both providers enabled and active. -/
def allOn : ApiFlags := ⟨true, true, true, true⟩

/-- `getActiveApis` (apiManager.js 17-22): the registered names whose
config is enabled and active, in registration order. -/
def getActiveApis (c : ApiFlags) : List String :=
  apiNames.filter (fun k => c.enabledFor k && c.activeFor k)

/-- The hard-coded category ranking of `selectBestApi` (apiManager.js
38-44); an unknown category falls back to the upper_body list. -/
def apiPriorityList (category : String) : List String :=
  if category = "upper_body" then ["idm-vton", "nano-banana"]
  else if category = "lower_body" then ["idm-vton", "nano-banana"]
  else if category = "dresses" then ["nano-banana", "idm-vton"]
  else ["idm-vton", "nano-banana"]

/-- `selectBestApi` (apiManager.js 28-57): `none` models the
`No active API available` throw; otherwise the first entry of the
hard-coded list that is currently active, with the first active API as a
final fallback (line 56). -/
def selectBestApi (c : ApiFlags) (category : String) : Option String :=
  let activeApis := getActiveApis c
  if activeApis.isEmpty then none
  else match (apiPriorityList category).find? (fun a => activeApis.contains a) with
    | some a => some a
    | none => activeApis.head?

/-- Observable side effects of one request: reading an account row, or
invoking a provider. -/
inductive Effect where
  | accountRead (uid : String)
  | providerCall (api : String)
deriving DecidableEq

/-- `processWithApi` (apiManager.js 62-76): check registration and the
enabled flag, then invoke the provider; the provider is contacted only
after both checks pass. `invoke` is the opaque remote call. -/
def processWithApi (c : ApiFlags) (invoke : String → Except String String)
    (apiName : String) : Except String String × List Effect :=
  if !apiNames.contains apiName then (.error ("API not found: " ++ apiName), [])
  else if !c.enabledFor apiName then (.error ("API not enabled: " ++ apiName), [])
  else (invoke apiName, [.providerCall apiName])

/-- The success shape autoProcess returns. -/
structure TryOnResult where
  usedApi : String
  result : String
  fallback : Bool
deriving DecidableEq

/-- The fallback loop of autoProcess (apiManager.js 104-124): try each
remaining active API in order, marking fallback on success. -/
def tryFallbacks (c : ApiFlags) (invoke : String → Except String String) :
    List String → Except String TryOnResult × List Effect
  | [] => (.error "All APIs failed to process the image", [])
  | a :: rest =>
    match processWithApi c invoke a with
    | (.ok r, es) => (.ok ⟨a, r, true⟩, es)
    | (.error _, es) =>
      let t := tryFallbacks c invoke rest
      (t.1, es ++ t.2)

/-- `autoProcess` (apiManager.js 81-128): select, try the selection, then
fall back over the other active APIs. -/
def autoProcess (c : ApiFlags) (invoke : String → Except String String)
    (category : String) : Except String TryOnResult × List Effect :=
  match selectBestApi c category with
  | none => (.error "No active API available", [])
  | some sel =>
    match processWithApi c invoke sel with
    | (.ok r, es) => (.ok ⟨sel, r, false⟩, es)
    | (.error _, es) =>
      let t := tryFallbacks c invoke ((getActiveApis c).filter (fun a => a ≠ sel))
      (t.1, es ++ t.2)

/-- `processWithSpecificApi` (apiManager.js 174-183): bypass ranking but
still require the enabled flag. -/
def processWithSpecificApi (c : ApiFlags) (invoke : String → Except String String)
    (apiName : String) : Except String String × List Effect :=
  if !c.enabledFor apiName then (.error ("API " ++ apiName ++ " is not enabled"), [])
  else processWithApi c invoke apiName

/-- An inbound POST /api/process-image request (the fields the handler
branches on; the images themselves are opaque). -/
structure TryOnRequest where
  userId : Option String
  filesOk : Bool
  category : Option String
  api : Option String
deriving DecidableEq

/-- The responses of the /api/process-image handler, by HTTP meaning:
401, 404, 403, 400 (files), 400 (category), 200, 500. -/
inductive ApiResponse where
  | authRequired
  | userNotFound
  | noCredits
  | missingFiles
  | invalidCategory (c : String)
  | ok (usedApi : String) (fallback : Bool)
  | serverError (details : String)
deriving DecidableEq

/-- `validateCategory` (app.js 105-108). -/
def validateCategory (c : String) : Bool :=
  ["upper_body", "lower_body", "dresses"].contains c

/-- POST /api/process-image (app.js 126-362), in source order: userId
check, account read, balance check, file check, category check (with the
`|| 'upper_body'` default), provider processing, then — only after a
provider succeeded — the free-trial/credit debit. A provider failure is
thrown to the outer catch and answered with 500; the result download
branch is omitted because both of its arms perform the same debit. -/
def processImage (c : ApiFlags) (invoke : String → Except String String)
    (req : TryOnRequest) (db : Db) : ApiResponse × Db × List Effect :=
  match jsTruthyStr req.userId with
  | none => (.authRequired, db, [])
  | some uid =>
    match findUser db uid with
    | none => (.userNotFound, db, [.accountRead uid])
    | some user =>
      let hasFreeTrial : Bool := user.free_trials_used < user.free_trials_limit
      let hasCredits : Bool := JsNum.lt (.int 0) user.credits
      if !hasFreeTrial && !hasCredits then (.noCredits, db, [.accountRead uid])
      else if !req.filesOk then (.missingFiles, db, [.accountRead uid])
      else
        let category := (jsTruthyStr req.category).getD "upper_body"
        if !validateCategory category then
          (.invalidCategory category, db, [.accountRead uid])
        else
          let attempt : Except String TryOnResult × List Effect :=
            match jsTruthyStr req.api with
            | some sel =>
              match processWithSpecificApi c invoke sel with
              | (.ok r, es) => (.ok ⟨sel, r, false⟩, es)
              | (.error e, es) => (.error e, es)
            | none => autoProcess c invoke category
          match attempt with
          | (.error e, es) => (.serverError e, db, .accountRead uid :: es)
          | (.ok tr, es) =>
            let debited :=
              if hasFreeTrial then useFreeTrial db uid category tr.usedApi
              else useCredits db uid category tr.usedApi 1
            (.ok tr.usedApi tr.fallback, debited.1, .accountRead uid :: es)

/-- Phases of one in-flight `useCredits(uid, .., 1)` call, split at its
await points: the user-row read (authRoutes.js 459-463) completes strictly
before the balance update (479-482) and nothing in between holds a lock.
The three writes are merged into one atomic phase, which only makes the
model stricter than the code. -/
inductive DebitPhase where
  | ready
  | readDone (credits : JsNum)
  | finished (r : DebitResult)
deriving DecidableEq

/-- One micro-step of an in-flight useCredits call against the shared
state: perform the read, or perform the check-then-write using the stale
value captured by the read (`newBalance = user.credits - creditsToUse`). -/
def debitStep (uid category api_used : String) (creditsToUse : Int)
    (db : Db) (ph : DebitPhase) : Db × DebitPhase :=
  match ph with
  | .ready =>
    match findUser db uid with
    | none => (db, .finished .userNotFound)
    | some u => (db, .readDone u.credits)
  | .readDone v =>
    if JsNum.lt v (.int creditsToUse) then (db, .finished .insufficientCredits)
    else
      let newBalance := JsNum.sub v (.int creditsToUse)
      let db1 := updateUser db uid (fun w => { w with credits := newBalance })
      let db2 : Db := { db1 with credit_history := db1.credit_history ++
        [⟨uid, -creditsToUse, v, newBalance, "generation_used"⟩] }
      let db3 := createGeneration db2 uid ⟨uid, category, api_used, creditsToUse, false⟩
      (db3, .finished (.success (some newBalance)))
  | .finished r => (db, .finished r)

/-- Run two concurrent useCredits calls under an explicit schedule:
`true` advances call A by one micro-step, `false` advances call B. -/
def runTwoDebits (uid category api_used : String) (creditsToUse : Int) :
    List Bool → Db → DebitPhase → DebitPhase → Db × DebitPhase × DebitPhase
  | [], db, pa, pb => (db, pa, pb)
  | true :: rest, db, pa, pb =>
    let s := debitStep uid category api_used creditsToUse db pa
    runTwoDebits uid category api_used creditsToUse rest s.1 s.2 pb
  | false :: rest, db, pa, pb =>
    let s := debitStep uid category api_used creditsToUse db pb
    runTwoDebits uid category api_used creditsToUse rest s.1 pa s.2

/-- A storage state holding exactly one account. -/
def oneUserDb (credits : JsNum) (used limit : Int) : Db :=
  ⟨[⟨"u1", credits, used, limit, 0⟩], [], [], []⟩

/-- A paid order crediting 50 to account u1 (the spec §8 scenario). -/
def paidOrder50 : PolarOrder :=
  ⟨"ord_1", "paid", ⟨some "u1", none, some "50", none⟩, none, none⟩

/-- A paid order whose metadata quantity is the non-numeric string abc. -/
def nanOrder : PolarOrder :=
  ⟨"ord_nan", "paid", ⟨some "u1", none, none, some "abc"⟩, some 999, none⟩

/-- A paid order whose metadata quantity parses to the negative integer -5. -/
def negOrder : PolarOrder :=
  ⟨"ord_neg", "paid", ⟨some "u1", none, some "-5", none⟩, none, none⟩

/-- A request with a category outside the closed enumeration. -/
def hatsRequest : TryOnRequest := ⟨some "u1", true, some "hats", none⟩

/-- A provider environment where idm-vton fails and nano-banana succeeds. -/
def failIdmInvoke : String → Except String String :=
  fun n => if n = "idm-vton" then .error "boom" else .ok "img"

/-- A provider environment where every invocation fails. -/
def allFailInvoke : String → Except String String :=
  fun n => .error ("down: " ++ n)

/-- A valid auto-mode request from account u1. -/
def autoRequest : TryOnRequest := ⟨some "u1", true, some "upper_body", none⟩

theorem find?_map_pres {α : Type} (g : α → α) (p : α → Bool)
    (hp : ∀ a, p (g a) = p a) (l : List α) :
    (l.map g).find? p = (l.find? p).map g := by
  induction l with
  | nil => rfl
  | cons a t ih =>
    by_cases hpa : p a = true
    · rw [List.map_cons, List.find?_cons_of_pos _ ((hp a).trans hpa),
        List.find?_cons_of_pos _ hpa]
      rfl
    · have h1 : ¬ p (g a) = true := by rw [hp a]; exact hpa
      rw [List.map_cons, List.find?_cons_of_neg _ h1, List.find?_cons_of_neg _ hpa, ih]

theorem find?_append_none {α : Type} (p : α → Bool) (l1 l2 : List α)
    (h : l1.find? p = none) : (l1 ++ l2).find? p = l2.find? p := by
  induction l1 with
  | nil => rfl
  | cons a t ih =>
    by_cases hpa : p a = true
    · rw [List.find?_cons_of_pos _ hpa] at h
      exact absurd h (by simp)
    · rw [List.find?_cons_of_neg _ hpa] at h
      rw [List.cons_append, List.find?_cons_of_neg _ hpa, ih h]

theorem findUser_updateUser (db : Db) (uid uid2 : String) (f : UserRow → UserRow)
    (hid : ∀ u, (f u).id = u.id) :
    findUser (updateUser db uid f) uid2 =
      (findUser db uid2).map (fun u => if u.id == uid then f u else u) := by
  have hp : ∀ u : UserRow,
      ((if u.id == uid then f u else u).id == uid2) = (u.id == uid2) := by
    intro v
    by_cases h : (v.id == uid) = true
    · simp only [if_pos h, hid]
    · simp only [if_neg h]
  exact find?_map_pres _ _ hp db.users

theorem findUser_createGeneration (db : Db) (uid uid2 : String) (g : GenerationRow) :
    findUser (createGeneration db uid g) uid2 =
      (findUser db uid2).map (fun u => if u.id == uid
        then { u with total_generations := u.total_generations + 1 } else u) :=
  findUser_updateUser _ uid uid2 _ (fun _ => rfl)

theorem apiPriorityList_cases (cat : String) :
    apiPriorityList cat = ["idm-vton", "nano-banana"]
    ∨ apiPriorityList cat = ["nano-banana", "idm-vton"] := by
  unfold apiPriorityList
  split_ifs <;> simp

/-- C3: the code has no per-account serialization: two concurrent
`useCredits` calls on an account holding exactly 1 credit, interleaved so
that both stale reads happen before either write, BOTH succeed — a lost
update (two -1 ledger entries, balance only falls from 1 to 0) instead of
one success and one NoBalance. Run serially, the second call is correctly
rejected with insufficient credits, as the second conjunct shows. -/
theorem concurrent_debits_double_spend :
    runTwoDebits "u1" "upper_body" "nano-banana" 1 [true, false, true, false]
      (oneUserDb (.int 1) 0 0) .ready .ready =
      (⟨[⟨"u1", .int 0, 0, 0, 2⟩], [],
        [⟨"u1", -1, .int 1, .int 0, "generation_used"⟩,
         ⟨"u1", -1, .int 1, .int 0, "generation_used"⟩],
        [⟨"u1", "upper_body", "nano-banana", 1, false⟩,
         ⟨"u1", "upper_body", "nano-banana", 1, false⟩]⟩,
       .finished (.success (some (.int 0))), .finished (.success (some (.int 0))))
    ∧ (useCredits (useCredits (oneUserDb (.int 1) 0 0) "u1" "upper_body" "nano-banana" 1).1
        "u1" "upper_body" "nano-banana" 1).2 = .insufficientCredits := by decide

/-- C4 counterexample: on the account (credits 0, trials_used 0, limit 1)
a free-trial debit leaves credit_history EMPTY — the zero-amount record
lands in the generations table, not in the credit-history ledger, so the
claimed credit-history entry does not exist. -/
theorem free_trial_writes_no_credit_history :
    useFreeTrial (oneUserDb (.int 0) 0 1) "u1" "upper_body" "nano-banana" =
      (⟨[⟨"u1", .int 0, 1, 1, 1⟩], [], [],
        [⟨"u1", "upper_body", "nano-banana", 0, true⟩]⟩, .success none)
    ∧ (useFreeTrial (oneUserDb (.int 0) 0 1) "u1" "upper_body" "nano-banana").1.credit_history
        = [] := by decide

/-- C4 (amended): when free_trials_used is below the limit, a free-trial
debit increments the counter, leaves the credit balance and the
credit_history table untouched, and appends one zero-credit generation row
flagged was_free_trial. -/
theorem free_trial_records_generation (db : Db) (uid category api_used : String)
    (u : UserRow) (hu : findUser db uid = some u)
    (hlim : u.free_trials_used < u.free_trials_limit) :
    (useFreeTrial db uid category api_used).2 = .success none
    ∧ userFreeTrials (useFreeTrial db uid category api_used).1 uid
        = some (u.free_trials_used + 1)
    ∧ userCredits (useFreeTrial db uid category api_used).1 uid = some u.credits
    ∧ (useFreeTrial db uid category api_used).1.credit_history = db.credit_history
    ∧ (useFreeTrial db uid category api_used).1.generations
        = db.generations ++ [⟨uid, category, api_used, 0, true⟩] := by
  have hnot : ¬ u.free_trials_limit ≤ u.free_trials_used := not_le.mpr hlim
  have hu2 : db.users.find? (fun v => v.id == uid) = some u := hu
  have hpu0 := List.find?_some hu2
  have hpu : (u.id == uid) = true := hpu0
  have h1 : findUser (updateUser db uid
      (fun v => { v with free_trials_used := v.free_trials_used + 1 })) uid =
      some { u with free_trials_used := u.free_trials_used + 1 } := by
    rw [findUser_updateUser db uid uid
      (fun v => { v with free_trials_used := v.free_trials_used + 1 }) (fun _ => rfl),
      hu, Option.map_some']
    rw [if_pos hpu]
  have h2 : findUser (useFreeTrial db uid category api_used).1 uid =
      some { u with free_trials_used := u.free_trials_used + 1,
                    total_generations := u.total_generations + 1 } := by
    simp only [useFreeTrial, hu, if_neg hnot]
    rw [findUser_createGeneration, h1, Option.map_some', if_pos hpu]
  refine ⟨?_, ?_, ?_, ?_, ?_⟩
  · simp only [useFreeTrial, hu, if_neg hnot]
  · rw [userFreeTrials, h2]
    rfl
  · rw [userCredits, h2]
    rfl
  · simp only [useFreeTrial, hu, if_neg hnot]
    rfl
  · simp only [useFreeTrial, hu, if_neg hnot]
    rfl

/-- C4 witness: the amended theorem evaluated on the account
(credits 0, trials_used 0, limit 1). -/
theorem free_trial_records_generation_witness :
    findUser (oneUserDb (.int 0) 0 1) "u1" = some ⟨"u1", .int 0, 0, 1, 0⟩
    ∧ (0 : Int) < 1
    ∧ ((useFreeTrial (oneUserDb (.int 0) 0 1) "u1" "upper_body" "nano-banana").2
          = .success none
       ∧ userFreeTrials (useFreeTrial (oneUserDb (.int 0) 0 1) "u1" "upper_body"
            "nano-banana").1 "u1" = some (0 + 1)
       ∧ userCredits (useFreeTrial (oneUserDb (.int 0) 0 1) "u1" "upper_body"
            "nano-banana").1 "u1" = some (.int 0)
       ∧ (useFreeTrial (oneUserDb (.int 0) 0 1) "u1" "upper_body"
            "nano-banana").1.credit_history = (oneUserDb (.int 0) 0 1).credit_history
       ∧ (useFreeTrial (oneUserDb (.int 0) 0 1) "u1" "upper_body"
            "nano-banana").1.generations = (oneUserDb (.int 0) 0 1).generations ++
              [⟨"u1", "upper_body", "nano-banana", 0, true⟩]) :=
  ⟨by decide, by decide,
    free_trial_records_generation (oneUserDb (.int 0) 0 1) "u1" "upper_body"
      "nano-banana" ⟨"u1", .int 0, 0, 1, 0⟩ (by decide) (by decide)⟩

/-- C5 counterexample: with both providers enabled and active for
upper_body, automatic selection picks idm-vton, whose configured rank is
2, over nano-banana, whose configured rank is 1 — the configured priority
table is not what drives the choice. -/
theorem selection_ignores_configured_priority :
    getActiveApis allOn = ["idm-vton", "nano-banana"]
    ∧ configuredPriority "nano-banana" "upper_body" = some 1
    ∧ configuredPriority "idm-vton" "upper_body" = some 2
    ∧ selectBestApi allOn "upper_body" = some "idm-vton" := by decide

/-- C5 (amended): whenever at least one provider is enabled and active,
automatic selection returns the first enabled-and-active name of the
hard-coded per-category list (idm-vton before nano-banana for upper_body
and lower_body, nano-banana before idm-vton for dresses), ignoring the
configured priority ranks. -/
theorem selection_follows_hardcoded_list (c : ApiFlags) (cat : String)
    (hne : getActiveApis c ≠ []) :
    selectBestApi c cat =
      (apiPriorityList cat).find? (fun a => c.enabledFor a && c.activeFor a) := by
  obtain ⟨e1, a1, e2, a2⟩ := c
  rcases apiPriorityList_cases cat with hl | hl <;>
    cases e1 <;> cases a1 <;> cases e2 <;> cases a2 <;>
    first
      | exact absurd (by decide) hne
      | (unfold selectBestApi; rw [hl]; decide)

/-- C5 witness: the amended theorem evaluated with both providers enabled
and active for upper_body. -/
theorem selection_follows_hardcoded_list_witness :
    getActiveApis allOn ≠ []
    ∧ selectBestApi allOn "upper_body" =
        (apiPriorityList "upper_body").find?
          (fun a => allOn.enabledFor a && allOn.activeFor a) :=
  ⟨by decide, selection_follows_hardcoded_list allOn "upper_body" (by decide)⟩

/-- C9: a paid order whose metadata quantity is the non-numeric string
abc parses to NaN, which passes the `=== 0` guard; the handler then DOES
create a transaction row and sets the account balance to NaN, contrary to
the claimed terminal no-effect MalformedEvent. -/
theorem nan_quantity_escapes_guard :
    orderCreditsToAdd nanOrder = .nan
    ∧ handleOrderCreated false nanOrder (oneUserDb (.int 10) 0 0)
        = (⟨[⟨"u1", .nan, 0, 0, 0⟩], [⟨"u1", "ord_nan", 999, .nan⟩], [], []⟩,
           .credited .nan)
    ∧ txCountFor (handleOrderCreated false nanOrder (oneUserDb (.int 10) 0 0)).1 "ord_nan" = 1
    ∧ userCredits (handleOrderCreated false nanOrder (oneUserDb (.int 10) 0 0)).1 "u1"
        = some .nan := by decide

/-- C10: when the dedup lookup fails with a storage error other than
row-not-found, a paid order is silently dropped — no transaction row, no
balance change — and the webhook route still acknowledges with 202. -/
theorem dedup_error_drops_order (o : PolarOrder) (db : Db)
    (hpaid : o.status = "paid") :
    handleOrderCreated true o db = (db, .dedupCheckError)
    ∧ polarWebhookRoute true true ⟨"order.created", o⟩ db = (202, db) := by
  have h1 : handleOrderCreated true o db = (db, .dedupCheckError) := by
    unfold handleOrderCreated
    rw [hpaid]
    simp
  refine ⟨h1, ?_⟩
  unfold polarWebhookRoute
  simp [h1]

/-- C10 witness: the theorem evaluated on a concrete paid order and a
one-account state. -/
theorem dedup_error_drops_order_witness :
    paidOrder50.status = "paid"
    ∧ (handleOrderCreated true paidOrder50 (oneUserDb (.int 10) 0 0)
          = (oneUserDb (.int 10) 0 0, .dedupCheckError)
       ∧ polarWebhookRoute true true ⟨"order.created", paidOrder50⟩
            (oneUserDb (.int 10) 0 0) = (202, oneUserDb (.int 10) 0 0)) :=
  ⟨rfl, dedup_error_drops_order paidOrder50 (oneUserDb (.int 10) 0 0) rfl⟩

/-- C2 counterexample: a webhook credit add whose metadata quantity parses
to -5, applied to an account satisfying the invariant, drives the balance
to -5: the invariant does not hold over every sequence of the three
ledger operations. -/
theorem ledger_invariant_broken_by_negative_webhook :
    accountInvariant (oneUserDb (.int 0) 0 0) = true
    ∧ negOrder.status = "paid"
    ∧ accountInvariant (applyOps (oneUserDb (.int 0) 0 0) [.webhookAdd false negOrder])
        = false
    ∧ userCredits (applyOps (oneUserDb (.int 0) 0 0) [.webhookAdd false negOrder]) "u1"
        = some (.int (-5)) := by decide

/-- C8 counterexample: a request with the unknown category hats and a
valid funded account is answered with the 400 invalid-category response,
but only after the account row has been read: the claimed
no-account-read-before-rejection is false. -/
theorem invalid_category_after_account_read :
    processImage allOn (fun _ => .error "noop") hatsRequest (oneUserDb (.int 5) 0 3)
      = (.invalidCategory "hats", oneUserDb (.int 5) 0 3, [.accountRead "u1"])
    ∧ .accountRead "u1" ∈
        (processImage allOn (fun _ => .error "noop") hatsRequest
          (oneUserDb (.int 5) 0 3)).2.2 := by decide

/-- C1: for a fresh, well-formed paid order (no transaction row for its
order id yet, resolvable account, nonzero integer quantity), processing
the event N times for any N ≥ 1 leaves the state reached after the first
processing: exactly one transaction row carries the order id, the credit
balance is increased exactly once, and every replay exits through the
idempotency check as alreadyProcessed with no state change. -/
theorem webhook_replay_idempotent (o : PolarOrder) (db : Db) (uid : String)
    (u : UserRow) (k : Int) (N : Nat)
    (hpaid : o.status = "paid")
    (hno : findTransaction db o.id = none)
    (huid : jsTruthyStr (orderUserId o) = some uid)
    (hk : orderCreditsToAdd o = .int k)
    (hk0 : k ≠ 0)
    (hu : findUser db uid = some u)
    (hN : 1 ≤ N) :
    (fun s => (handleOrderCreated false o s).1)^[N] db
      = (handleOrderCreated false o db).1
    ∧ txCountFor (handleOrderCreated false o db).1 o.id = 1
    ∧ userCredits (handleOrderCreated false o db).1 uid
        = some ((if u.credits.falsy then JsNum.int 0 else u.credits).add (.int k))
    ∧ (handleOrderCreated false o ((handleOrderCreated false o db).1)).2
        = .alreadyProcessed := by
  have hu2 : db.users.find? (fun v => v.id == uid) = some u := hu
  have hpu0 := List.find?_some hu2
  have hpu : (u.id == uid) = true := hpu0
  have hstep1 : handleOrderCreated false o db =
      (updateUser { db with transactions := db.transactions ++
          [⟨uid, o.id, jsOrInt o.totalAmount o.amount, JsNum.int k⟩] } uid
        (fun v => { v with credits :=
          (if u.credits.falsy then JsNum.int 0 else u.credits).add (.int k) }),
       .credited ((if u.credits.falsy then JsNum.int 0 else u.credits).add (.int k))) := by
    simp only [handleOrderCreated, hpaid, ne_eq, hno, huid, hk, hu]
    simp [hk0]
  have htx : (handleOrderCreated false o db).1.transactions
      = db.transactions ++ [⟨uid, o.id, jsOrInt o.totalAmount o.amount, JsNum.int k⟩] := by
    rw [hstep1]
    rfl
  have hfind1 : findTransaction (handleOrderCreated false o db).1 o.id =
      some ⟨uid, o.id, jsOrInt o.totalAmount o.amount, JsNum.int k⟩ := by
    have hno2 : db.transactions.find? (fun t => t.order_id == o.id) = none := hno
    unfold findTransaction
    rw [htx, find?_append_none _ _ _ hno2, List.find?_cons_of_pos _ (by simp)]
  have hstep2gen : ∀ (s : Db) (t : TransactionRow), findTransaction s o.id = some t →
      handleOrderCreated false o s = (s, .alreadyProcessed) := by
    intro s t hfound
    simp only [handleOrderCreated, hpaid, ne_eq, hfound]
    simp
  have hstep2 : handleOrderCreated false o ((handleOrderCreated false o db).1)
      = ((handleOrderCreated false o db).1, .alreadyProcessed) :=
    hstep2gen _ _ hfind1
  have hfix : (handleOrderCreated false o ((handleOrderCreated false o db).1)).1
      = (handleOrderCreated false o db).1 := by
    rw [hstep2]
  have hiter : ∀ M : Nat, (fun s => (handleOrderCreated false o s).1)^[M + 1] db
      = (handleOrderCreated false o db).1 := by
    intro M
    induction M with
    | zero => rfl
    | succ m ih =>
      rw [Function.iterate_succ_apply', ih]
      exact hfix
  refine ⟨?_, ?_, ?_, ?_⟩
  · rcases N with _ | M
    · exact absurd hN (by simp)
    · exact hiter M
  · unfold txCountFor
    rw [htx, List.countP_append]
    have h0 : db.transactions.countP (fun t => t.order_id == o.id) = 0 :=
      List.countP_eq_zero.mpr (List.find?_eq_none.mp hno)
    rw [h0]
    simp
  · have hu3 : findUser { db with transactions := db.transactions ++
        [⟨uid, o.id, jsOrInt o.totalAmount o.amount, JsNum.int k⟩] } uid = some u := hu
    rw [hstep1]
    unfold userCredits
    rw [findUser_updateUser _ uid uid
      (fun v => { v with credits :=
        (if u.credits.falsy then JsNum.int 0 else u.credits).add (.int k) })
      (fun _ => rfl)]
    rw [hu3, Option.map_some', if_pos hpu]
    rfl
  · rw [hstep2]

/-- C1 witness: the spec §8 scenario — order ord_1 adds 50 credits to an
account at 10 credits; three deliveries leave the state of the first. -/
theorem webhook_replay_idempotent_witness :
    (paidOrder50.status = "paid"
     ∧ findTransaction (oneUserDb (.int 10) 0 0) paidOrder50.id = none
     ∧ jsTruthyStr (orderUserId paidOrder50) = some "u1"
     ∧ orderCreditsToAdd paidOrder50 = .int 50
     ∧ findUser (oneUserDb (.int 10) 0 0) "u1" = some ⟨"u1", .int 10, 0, 0, 0⟩)
    ∧ ((fun s => (handleOrderCreated false paidOrder50 s).1)^[3] (oneUserDb (.int 10) 0 0)
        = (handleOrderCreated false paidOrder50 (oneUserDb (.int 10) 0 0)).1
      ∧ txCountFor (handleOrderCreated false paidOrder50 (oneUserDb (.int 10) 0 0)).1
          paidOrder50.id = 1
      ∧ userCredits (handleOrderCreated false paidOrder50 (oneUserDb (.int 10) 0 0)).1 "u1"
          = some ((if (JsNum.int 10).falsy then JsNum.int 0 else .int 10).add (.int 50))
      ∧ (handleOrderCreated false paidOrder50
          ((handleOrderCreated false paidOrder50 (oneUserDb (.int 10) 0 0)).1)).2
          = .alreadyProcessed) :=
  ⟨⟨rfl, by decide, by decide, by decide, by decide⟩,
    webhook_replay_idempotent paidOrder50 (oneUserDb (.int 10) 0 0) "u1"
      ⟨"u1", .int 10, 0, 0, 0⟩ 50 3 rfl (by decide) (by decide) (by decide)
      (by decide) (by decide) (by decide)⟩

theorem mem_getActiveApis {c : ApiFlags} {a : String} (h : a ∈ getActiveApis c) :
    a ∈ apiNames ∧ (c.enabledFor a && c.activeFor a) = true :=
  List.mem_filter.mp h

theorem processWithApi_of_active {c : ApiFlags} (invoke : String → Except String String)
    {a : String} (h : a ∈ getActiveApis c) :
    processWithApi c invoke a = (invoke a, [.providerCall a]) := by
  obtain ⟨hmem, hflag⟩ := mem_getActiveApis h
  have hen : c.enabledFor a = true := ((Bool.and_eq_true _ _).mp hflag).1
  have hcontains : apiNames.contains a = true := by simpa using hmem
  simp [processWithApi, hcontains, hen, hmem]

theorem selectBestApi_mem {c : ApiFlags} {cat a : String}
    (h : selectBestApi c cat = some a) : a ∈ getActiveApis c := by
  unfold selectBestApi at h
  by_cases he : (getActiveApis c).isEmpty
  · rw [if_pos he] at h
    cases h
  · rw [if_neg he] at h
    cases hf : (apiPriorityList cat).find? (fun x => (getActiveApis c).contains x) with
    | some b =>
      simp only [hf] at h
      have hb := List.find?_some hf
      have hba : b = a := Option.some.inj h
      subst hba
      simpa using hb
    | none =>
      simp only [hf] at h
      exact List.mem_of_mem_head? (by simp [h])

theorem tryFallbacks_all_error (c : ApiFlags) (invoke : String → Except String String)
    (l : List String)
    (h : ∀ a ∈ l, ∃ e, (processWithApi c invoke a).1 = .error e) :
    (tryFallbacks c invoke l).1 = .error "All APIs failed to process the image" := by
  induction l with
  | nil => rfl
  | cons a t ih =>
    obtain ⟨e, he⟩ := h a (List.mem_cons_self a t)
    have ht : ∀ x ∈ t, ∃ e2, (processWithApi c invoke x).1 = .error e2 :=
      fun x hx => h x (List.mem_cons_of_mem a hx)
    cases hpa : processWithApi c invoke a with
    | mk r es =>
      cases r with
      | ok v =>
        rw [hpa] at he
        simp at he
      | error e2 =>
        simp only [tryFallbacks, hpa]
        exact ih ht

theorem autoProcess_all_error (c : ApiFlags) (invoke : String → Except String String)
    (cat : String) (hne : getActiveApis c ≠ [])
    (hfail : ∀ a ∈ getActiveApis c, ∃ e, invoke a = .error e) :
    (autoProcess c invoke cat).1 = .error "All APIs failed to process the image" := by
  have hfailP : ∀ a ∈ getActiveApis c, ∃ e, (processWithApi c invoke a).1 = .error e := by
    intro a ha
    obtain ⟨e, he⟩ := hfail a ha
    refine ⟨e, ?_⟩
    rw [processWithApi_of_active invoke ha]
    exact he
  cases hsel : selectBestApi c cat with
  | none =>
    exfalso
    unfold selectBestApi at hsel
    by_cases he : (getActiveApis c).isEmpty
    · exact hne (List.isEmpty_iff.mp he)
    · rw [if_neg he] at hsel
      cases hf : (apiPriorityList cat).find? (fun x => (getActiveApis c).contains x) with
      | some b =>
        simp only [hf] at hsel
        exact Option.noConfusion hsel
      | none =>
        simp only [hf] at hsel
        exact hne (by simpa using hsel)
  | some sel =>
    have hselmem := selectBestApi_mem hsel
    obtain ⟨e, he⟩ := hfail sel hselmem
    have hp : processWithApi c invoke sel = (.error e, [.providerCall sel]) := by
      rw [processWithApi_of_active invoke hselmem, he]
    simp only [autoProcess, hsel, hp]
    exact tryFallbacks_all_error c invoke _
      (fun a ha => hfailP a (List.mem_of_mem_filter ha))

/-- C6: in automatic mode, when the candidate ranked first fails and the
other enabled-and-active provider succeeds, the outcome is success
reporting the second provider with fallback = true. -/
theorem fallback_uses_second_provider (cat p1 p2 e u : String)
    (invoke : String → Except String String)
    (hsel : selectBestApi allOn cat = some p1)
    (h1 : invoke p1 = .error e)
    (hp2 : p2 ∈ getActiveApis allOn)
    (hne : p2 ≠ p1)
    (h2 : invoke p2 = .ok u) :
    (autoProcess allOn invoke cat).1 = .ok ⟨p2, u, true⟩ := by
  have hp2m : p2 ∈ (["idm-vton", "nano-banana"] : List String) := hp2
  rcases apiPriorityList_cases cat with hl | hl
  · have hsel3 : selectBestApi allOn cat = some "idm-vton" := by
      unfold selectBestApi
      rw [hl]
      decide
    rw [hsel] at hsel3
    have hp1 : p1 = "idm-vton" := Option.some.inj hsel3
    subst hp1
    have hp2e : p2 = "nano-banana" := by
      rcases List.mem_cons.mp hp2m with h | h
      · exact absurd h hne
      · simpa using h
    subst hp2e
    have hfilter : (getActiveApis allOn).filter (fun a => a ≠ "idm-vton")
        = ["nano-banana"] := by decide
    have hpa1 : processWithApi allOn invoke "idm-vton"
        = (invoke "idm-vton", [.providerCall "idm-vton"]) := rfl
    have hpa2 : processWithApi allOn invoke "nano-banana"
        = (invoke "nano-banana", [.providerCall "nano-banana"]) := rfl
    simp only [autoProcess, hsel, hpa1, h1, hfilter, tryFallbacks, hpa2, h2]
  · have hsel3 : selectBestApi allOn cat = some "nano-banana" := by
      unfold selectBestApi
      rw [hl]
      decide
    rw [hsel] at hsel3
    have hp1 : p1 = "nano-banana" := Option.some.inj hsel3
    subst hp1
    have hp2e : p2 = "idm-vton" := by
      rcases List.mem_cons.mp hp2m with h | h
      · exact h
      · simp at h
        exact absurd h hne
    subst hp2e
    have hfilter : (getActiveApis allOn).filter (fun a => a ≠ "nano-banana")
        = ["idm-vton"] := by decide
    have hpa1 : processWithApi allOn invoke "nano-banana"
        = (invoke "nano-banana", [.providerCall "nano-banana"]) := rfl
    have hpa2 : processWithApi allOn invoke "idm-vton"
        = (invoke "idm-vton", [.providerCall "idm-vton"]) := rfl
    simp only [autoProcess, hsel, hpa1, h1, hfilter, tryFallbacks, hpa2, h2]

/-- C6 witness: for upper_body with both providers on, idm-vton (ranked
first) fails, nano-banana succeeds, and the outcome reports nano-banana
with fallback = true. -/
theorem fallback_uses_second_provider_witness :
    (selectBestApi allOn "upper_body" = some "idm-vton"
     ∧ failIdmInvoke "idm-vton" = .error "boom"
     ∧ "nano-banana" ∈ getActiveApis allOn
     ∧ "nano-banana" ≠ "idm-vton"
     ∧ failIdmInvoke "nano-banana" = .ok "img")
    ∧ (autoProcess allOn failIdmInvoke "upper_body").1 = .ok ⟨"nano-banana", "img", true⟩ :=
  ⟨⟨by decide, rfl, by decide, by decide, rfl⟩,
    fallback_uses_second_provider "upper_body" "idm-vton" "nano-banana" "boom" "img"
      failIdmInvoke (by decide) rfl (by decide) (by decide) rfl⟩

/-- C7: a valid auto-mode request on a funded account, with at least one
active provider and every active provider failing, is answered with the
AllProvidersFailed 500 error and the storage state is unchanged: no free
trial consumed, no credit decremented, no ledger row written. -/
theorem all_providers_fail_no_debit
    (c : ApiFlags) (invoke : String → Except String String) (req : TryOnRequest)
    (db : Db) (uid : String) (user : UserRow)
    (huid : jsTruthyStr req.userId = some uid)
    (hu : findUser db uid = some user)
    (hbal : user.free_trials_used < user.free_trials_limit
            ∨ JsNum.lt (.int 0) user.credits = true)
    (hfiles : req.filesOk = true)
    (hcat : validateCategory ((jsTruthyStr req.category).getD "upper_body") = true)
    (hauto : req.api = none)
    (hne : getActiveApis c ≠ [])
    (hfail : ∀ a ∈ getActiveApis c, ∃ e, invoke a = .error e) :
    (processImage c invoke req db).1 = .serverError "All APIs failed to process the image"
    ∧ (processImage c invoke req db).2.1 = db := by
  have hauto2 : jsTruthyStr req.api = none := by
    rw [hauto]
    rfl
  have herr := autoProcess_all_error c invoke
    ((jsTruthyStr req.category).getD "upper_body") hne hfail
  have hguard : (!(decide (user.free_trials_used < user.free_trials_limit))
      && !(JsNum.lt (.int 0) user.credits)) = false := by
    rcases hbal with hb | hb
    · simp [hb]
    · simp [hb]
  cases hA : autoProcess c invoke ((jsTruthyStr req.category).getD "upper_body") with
  | mk r es =>
    have hr : r = .error "All APIs failed to process the image" := by
      rw [hA] at herr
      exact herr
    subst hr
    have hmain : processImage c invoke req db =
        (.serverError "All APIs failed to process the image", db, .accountRead uid :: es) := by
      simp only [processImage, huid, hu, hguard, hfiles, hcat, hauto2, hA]
      simp
    rw [hmain]
    exact ⟨rfl, rfl⟩

/-- C7 witness: the theorem evaluated with both providers active, every
invocation failing, on a funded one-account state. -/
theorem all_providers_fail_no_debit_witness :
    (jsTruthyStr autoRequest.userId = some "u1"
     ∧ findUser (oneUserDb (.int 5) 0 3) "u1" = some ⟨"u1", .int 5, 0, 3, 0⟩
     ∧ ((0 : Int) < 3 ∨ JsNum.lt (.int 0) (.int 5) = true)
     ∧ autoRequest.filesOk = true
     ∧ validateCategory ((jsTruthyStr autoRequest.category).getD "upper_body") = true
     ∧ autoRequest.api = none
     ∧ getActiveApis allOn ≠ [])
    ∧ ((processImage allOn allFailInvoke autoRequest (oneUserDb (.int 5) 0 3)).1
        = .serverError "All APIs failed to process the image"
      ∧ (processImage allOn allFailInvoke autoRequest (oneUserDb (.int 5) 0 3)).2.1
        = oneUserDb (.int 5) 0 3) :=
  ⟨⟨by decide, by decide, by decide, by decide, by decide, by decide, by decide⟩,
    all_providers_fail_no_debit allOn allFailInvoke autoRequest (oneUserDb (.int 5) 0 3)
      "u1" ⟨"u1", .int 5, 0, 3, 0⟩ (by decide) (by decide) (by decide) (by decide)
      (by decide) (by decide) (by decide)
      (fun a _ => ⟨"down: " ++ a, rfl⟩)⟩

/-- C8 (amended): a request whose category is outside the closed set is
rejected with the 400 invalid-category response before any provider is
contacted and with no state change — but only after the account row has
been read and the balance checked: the trace of the run is exactly the
account read. -/
theorem invalid_category_rejected_after_read
    (c : ApiFlags) (invoke : String → Except String String) (req : TryOnRequest)
    (db : Db) (uid : String) (user : UserRow)
    (huid : jsTruthyStr req.userId = some uid)
    (hu : findUser db uid = some user)
    (hbal : user.free_trials_used < user.free_trials_limit
            ∨ JsNum.lt (.int 0) user.credits = true)
    (hfiles : req.filesOk = true)
    (hcat : validateCategory ((jsTruthyStr req.category).getD "upper_body") = false) :
    processImage c invoke req db =
      (.invalidCategory ((jsTruthyStr req.category).getD "upper_body"), db,
       [.accountRead uid]) := by
  have hguard : (!(decide (user.free_trials_used < user.free_trials_limit))
      && !(JsNum.lt (.int 0) user.credits)) = false := by
    rcases hbal with hb | hb
    · simp [hb]
    · simp [hb]
  simp only [processImage, huid, hu, hguard, hfiles, hcat]
  simp

/-- C8 witness: the amended theorem evaluated on the hats request against
a funded account. -/
theorem invalid_category_rejected_after_read_witness :
    (jsTruthyStr hatsRequest.userId = some "u1"
     ∧ findUser (oneUserDb (.int 5) 0 3) "u1" = some ⟨"u1", .int 5, 0, 3, 0⟩
     ∧ ((0 : Int) < 3 ∨ JsNum.lt (.int 0) (.int 5) = true)
     ∧ hatsRequest.filesOk = true
     ∧ validateCategory ((jsTruthyStr hatsRequest.category).getD "upper_body") = false)
    ∧ processImage allOn allFailInvoke hatsRequest (oneUserDb (.int 5) 0 3) =
        (.invalidCategory ((jsTruthyStr hatsRequest.category).getD "upper_body"),
         oneUserDb (.int 5) 0 3, [.accountRead "u1"]) :=
  ⟨⟨by decide, by decide, by decide, by decide, by decide⟩,
    invalid_category_rejected_after_read allOn allFailInvoke hatsRequest
      (oneUserDb (.int 5) 0 3) "u1" ⟨"u1", .int 5, 0, 3, 0⟩ (by decide) (by decide)
      (by decide) (by decide) (by decide)⟩

theorem rowOk_iff (u : UserRow) : rowOk u = true ↔
    (u.credits.nonneg = true ∧ u.free_trials_used ≤ u.free_trials_limit) := by
  unfold rowOk
  rw [Bool.and_eq_true]
  simp

theorem nonneg_exists (x : JsNum) (h : x.nonneg = true) :
    ∃ n : Int, x = .int n ∧ 0 ≤ n := by
  cases x with
  | nan => simp [JsNum.nonneg] at h
  | int n => exact ⟨n, rfl, by simpa [JsNum.nonneg] using h⟩

theorem userIds_updateUser (db : Db) (uid : String) (f : UserRow → UserRow)
    (hid : ∀ u, (f u).id = u.id) :
    userIds (updateUser db uid f) = userIds db := by
  unfold userIds updateUser
  rw [List.map_map]
  apply List.map_congr_left
  intro a _
  by_cases h : a.id = uid
  · simp [h, hid]
  · simp [h]

theorem userIds_createGeneration (db : Db) (uid : String) (g : GenerationRow) :
    userIds (createGeneration db uid g) = userIds db :=
  userIds_updateUser _ uid
    (fun u => { u with total_generations := u.total_generations + 1 }) (fun _ => rfl)

theorem accountInvariant_updateUser (db : Db) (uid : String) (f : UserRow → UserRow)
    (hinv : accountInvariant db = true)
    (hpres : ∀ u ∈ db.users, rowOk u = true → (u.id == uid) = true →
      rowOk (f u) = true) :
    accountInvariant (updateUser db uid f) = true := by
  unfold accountInvariant updateUser at *
  rw [List.all_eq_true] at hinv ⊢
  intro x hx
  obtain ⟨a, ha, rfl⟩ := List.mem_map.mp hx
  by_cases h : (a.id == uid) = true
  · simp only [if_pos h]
    exact hpres a ha (hinv a ha) h
  · simp only [if_neg h]
    exact hinv a ha

theorem accountInvariant_createGeneration (db : Db) (uid : String) (g : GenerationRow)
    (hinv : accountInvariant db = true) :
    accountInvariant (createGeneration db uid g) = true := by
  refine accountInvariant_updateUser _ uid _ hinv ?_
  intro u _ hrow _
  exact hrow

theorem findUser_unique (db : Db) (uid : String) (u v : UserRow)
    (hnodup : (userIds db).Nodup) (hu : findUser db uid = some u)
    (hv : v ∈ db.users) (hvid : (v.id == uid) = true) : v = u := by
  have hu2 : db.users.find? (fun w => w.id == uid) = some u := hu
  have humem : u ∈ db.users := List.mem_of_find?_eq_some hu2
  have hpu0 := List.find?_some hu2
  have hpu : (u.id == uid) = true := hpu0
  have hid : v.id = u.id := by
    have h1 : v.id = uid := by simpa using hvid
    have h2 : u.id = uid := by simpa using hpu
    rw [h1, h2]
  exact List.inj_on_of_nodup_map hnodup hv humem hid

theorem useFreeTrial_preserves (db : Db) (uid ct au : String)
    (hinv : accountInvariant db = true) (hnodup : (userIds db).Nodup) :
    accountInvariant (useFreeTrial db uid ct au).1 = true
    ∧ userIds (useFreeTrial db uid ct au).1 = userIds db := by
  cases hu : findUser db uid with
  | none =>
    simp only [useFreeTrial, hu]
    exact ⟨hinv, by simp⟩
  | some u =>
    by_cases hlim : u.free_trials_limit ≤ u.free_trials_used
    · simp only [useFreeTrial, hu, if_pos hlim]
      exact ⟨hinv, by simp⟩
    · simp only [useFreeTrial, hu, if_neg hlim]
      have hinv1 : accountInvariant (updateUser db uid
          (fun v => { v with free_trials_used := v.free_trials_used + 1 })) = true := by
        refine accountInvariant_updateUser db uid _ hinv ?_
        intro w hw hrow hwid
        have hweq : w = u := findUser_unique db uid u w hnodup hu hw hwid
        subst hweq
        rcases (rowOk_iff w).mp hrow with ⟨hc, _⟩
        refine (rowOk_iff _).mpr ⟨hc, ?_⟩
        show w.free_trials_used + 1 ≤ w.free_trials_limit
        omega
      constructor
      · exact accountInvariant_createGeneration _ uid _ hinv1
      · rw [userIds_createGeneration,
          userIds_updateUser db uid
            (fun v => { v with free_trials_used := v.free_trials_used + 1 })
            (fun _ => rfl)]

theorem useCredits_preserves (db : Db) (uid ct au : String) (k : Int)
    (hinv : accountInvariant db = true) (hnodup : (userIds db).Nodup) :
    accountInvariant (useCredits db uid ct au k).1 = true
    ∧ userIds (useCredits db uid ct au k).1 = userIds db := by
  cases hu : findUser db uid with
  | none =>
    simp only [useCredits, hu]
    exact ⟨hinv, by simp⟩
  | some u =>
    by_cases hguard : JsNum.lt u.credits (.int k) = true
    · simp only [useCredits, hu, if_pos hguard]
      exact ⟨hinv, by simp⟩
    · simp only [useCredits, hu, if_neg hguard]
      have hinv1 : accountInvariant (updateUser db uid
          (fun v => { v with credits := JsNum.sub u.credits (.int k) })) = true := by
        refine accountInvariant_updateUser db uid _ hinv ?_
        intro w hw hrow hwid
        have hweq : w = u := findUser_unique db uid u w hnodup hu hw hwid
        subst hweq
        rcases (rowOk_iff w).mp hrow with ⟨hc, ht⟩
        obtain ⟨n, hneq, hn0⟩ := nonneg_exists _ hc
        refine (rowOk_iff _).mpr ⟨?_, ht⟩
        show (JsNum.sub w.credits (.int k)).nonneg = true
        rw [hneq] at hguard ⊢
        simp only [JsNum.lt, decide_eq_true_eq] at hguard
        simp only [JsNum.sub, JsNum.nonneg, decide_eq_true_eq]
        omega
      constructor
      · exact accountInvariant_createGeneration _ uid _ hinv1
      · rw [userIds_createGeneration]
        exact userIds_updateUser db uid
          (fun v => { v with credits := JsNum.sub u.credits (.int k) }) (fun _ => rfl)

theorem handleOrderCreated_preserves (db : Db) (fault : Bool) (o : PolarOrder)
    (hinv : accountInvariant db = true) (hnodup : (userIds db).Nodup)
    (hok : (orderCreditsToAdd o).nonneg = true) :
    accountInvariant (handleOrderCreated fault o db).1 = true
    ∧ userIds (handleOrderCreated fault o db).1 = userIds db := by
  by_cases hst : o.status ≠ "paid"
  · simp only [handleOrderCreated, if_pos hst]
    exact ⟨hinv, by simp⟩
  · cases fault with
    | true =>
      simp only [handleOrderCreated, if_neg hst]
      exact ⟨hinv, by simp⟩
    | false =>
      cases htx : findTransaction db o.id with
      | some t =>
        simp only [handleOrderCreated, if_neg hst, htx]
        exact ⟨hinv, by simp⟩
      | none =>
        cases huid : jsTruthyStr (orderUserId o) with
        | none =>
          simp only [handleOrderCreated, if_neg hst, htx, huid]
          exact ⟨hinv, by simp⟩
        | some uid =>
          by_cases hz : orderCreditsToAdd o = .int 0
          · simp only [handleOrderCreated, if_neg hst, htx, huid, if_pos hz]
            exact ⟨hinv, by simp⟩
          · cases hu : findUser db uid with
            | none =>
              simp only [handleOrderCreated, if_neg hst, htx, huid, if_neg hz, hu]
              exact ⟨hinv, by simp⟩
            | some u =>
              simp only [handleOrderCreated, if_neg hst, htx, huid, if_neg hz, hu]
              have hu1 : findUser { db with transactions := db.transactions ++
                  [⟨uid, o.id, jsOrInt o.totalAmount o.amount, orderCreditsToAdd o⟩] } uid
                  = some u := hu
              have hinv1 : accountInvariant { db with transactions := db.transactions ++
                  [⟨uid, o.id, jsOrInt o.totalAmount o.amount, orderCreditsToAdd o⟩] }
                  = true := hinv
              have hnodup1 : (userIds { db with transactions := db.transactions ++
                  [⟨uid, o.id, jsOrInt o.totalAmount o.amount, orderCreditsToAdd o⟩] }).Nodup
                  := hnodup
              constructor
              · refine accountInvariant_updateUser _ uid _ hinv1 ?_
                intro w hw hrow hwid
                have hweq : w = u := findUser_unique _ uid u w hnodup1 hu1 hw hwid
                subst hweq
                rcases (rowOk_iff w).mp hrow with ⟨hc, ht⟩
                obtain ⟨n, hneq, hn0⟩ := nonneg_exists _ hc
                obtain ⟨m, hmeq, hm0⟩ := nonneg_exists _ hok
                refine (rowOk_iff _).mpr ⟨?_, ht⟩
                show ((if w.credits.falsy then JsNum.int 0 else w.credits).add
                  (orderCreditsToAdd o)).nonneg = true
                rw [hneq, hmeq]
                by_cases h0 : n = 0
                · subst h0
                  simp only [JsNum.falsy, JsNum.add, JsNum.nonneg]
                  simpa using hm0
                · simp only [JsNum.falsy, beq_iff_eq, if_neg h0, JsNum.add,
                    JsNum.nonneg, decide_eq_true_eq]
                  omega
              · exact userIds_updateUser _ uid _ (fun _ => rfl)

theorem applyOp_preserves (db : Db) (op : LedgerOp)
    (hinv : accountInvariant db = true) (hnodup : (userIds db).Nodup)
    (hok : op.okQuantity = true) :
    accountInvariant (applyOp db op) = true ∧ userIds (applyOp db op) = userIds db := by
  cases op with
  | freeTrial uid ct au => exact useFreeTrial_preserves db uid ct au hinv hnodup
  | credit uid ct au k => exact useCredits_preserves db uid ct au k hinv hnodup
  | webhookAdd fault o => exact handleOrderCreated_preserves db fault o hinv hnodup hok

/-- C2 (amended): starting from any state whose accounts all satisfy
credits ≥ 0 and free_trials_used ≤ free_trials_limit and whose user ids
are unique (the primary key), any sequence of free-trial debits, credit
debits and webhook credit adds preserves the invariant — PROVIDED every
webhook add carries a metadata quantity that parses to a nonnegative
integer; the code never checks this, and a negative quantity breaks the
invariant (see the counterexample). -/
theorem ledger_invariant_preserved (db : Db) (ops : List LedgerOp)
    (hinv : accountInvariant db = true)
    (hnodup : (userIds db).Nodup)
    (hok : ∀ op ∈ ops, op.okQuantity = true) :
    accountInvariant (applyOps db ops) = true := by
  induction ops generalizing db with
  | nil => simpa [applyOps] using hinv
  | cons op t ih =>
    have h1 := applyOp_preserves db op hinv hnodup (hok op (List.mem_cons_self op t))
    have h2 := ih (applyOp db op) h1.1 (h1.2 ▸ hnodup)
      (fun x hx => hok x (List.mem_cons_of_mem op hx))
    simpa [applyOps] using h2

/-- C2 witness: the invariant survives a webhook credit of 50, a
free-trial debit and a paid-credit debit applied in sequence. -/
theorem ledger_invariant_preserved_witness :
    (accountInvariant (oneUserDb (.int 0) 0 1) = true
     ∧ (userIds (oneUserDb (.int 0) 0 1)).Nodup
     ∧ ∀ op ∈ ([.webhookAdd false paidOrder50,
         .freeTrial "u1" "upper_body" "nano-banana",
         .credit "u1" "upper_body" "nano-banana" 1] : List LedgerOp),
         op.okQuantity = true)
    ∧ accountInvariant (applyOps (oneUserDb (.int 0) 0 1)
        [.webhookAdd false paidOrder50,
         .freeTrial "u1" "upper_body" "nano-banana",
         .credit "u1" "upper_body" "nano-banana" 1]) = true :=
  ⟨⟨by decide, by decide, by decide⟩,
    ledger_invariant_preserved (oneUserDb (.int 0) 0 1) _ (by decide) (by decide)
      (by decide)⟩

end VTryon
